import Mathlib

/-!
Verification development for the Newsletter2TurnInRepo rolling-price /
filings-merge core.

The Python source is shallowly embedded:
* CSV cells holding a price are `Option ℚ` (`none` models an empty cell /
  `NaN`, which `pd.notna` rejects); float arithmetic is modelled exactly
  over `ℚ`.
* A pandas `DataFrame` of the rolling price store is a `List Row`.
* Network effects are oracle functions passed in as arguments
  (`fetch : String → Option ℚ` models `fetch_prices_for_tickers`: `none`
  when the price fetch failed for that ticker, so the ticker is absent
  from the `ticker_prices` dict).
-/

namespace Newsletter

/-- One row of `tickersAndPrices.csv` (also `recentIPOTickersAndPrices.csv`):
column `ticker`, the 31 lagged price columns `31DaysAgo_price` …
`1DaysAgo_price` (oldest first, as in the CSV header), `Today_price`, and
the three derived move columns. -/
structure Row where
  ticker : String
  daysAgo31 : Option ℚ
  daysAgo30 : Option ℚ
  daysAgo29 : Option ℚ
  daysAgo28 : Option ℚ
  daysAgo27 : Option ℚ
  daysAgo26 : Option ℚ
  daysAgo25 : Option ℚ
  daysAgo24 : Option ℚ
  daysAgo23 : Option ℚ
  daysAgo22 : Option ℚ
  daysAgo21 : Option ℚ
  daysAgo20 : Option ℚ
  daysAgo19 : Option ℚ
  daysAgo18 : Option ℚ
  daysAgo17 : Option ℚ
  daysAgo16 : Option ℚ
  daysAgo15 : Option ℚ
  daysAgo14 : Option ℚ
  daysAgo13 : Option ℚ
  daysAgo12 : Option ℚ
  daysAgo11 : Option ℚ
  daysAgo10 : Option ℚ
  daysAgo9 : Option ℚ
  daysAgo8 : Option ℚ
  daysAgo7 : Option ℚ
  daysAgo6 : Option ℚ
  daysAgo5 : Option ℚ
  daysAgo4 : Option ℚ
  daysAgo3 : Option ℚ
  daysAgo2 : Option ℚ
  daysAgo1 : Option ℚ
  today_price : Option ℚ
  day_move : ℚ
  week_move : ℚ
  month_move : ℚ
deriving DecidableEq

/-- The 31 lagged slots of a row, oldest first (`31DaysAgo_price` …
`1DaysAgo_price`), in CSV column order. -/
def lagSlots (r : Row) : List (Option ℚ) :=
  [r.daysAgo31, r.daysAgo30, r.daysAgo29, r.daysAgo28, r.daysAgo27,
   r.daysAgo26, r.daysAgo25, r.daysAgo24, r.daysAgo23, r.daysAgo22,
   r.daysAgo21, r.daysAgo20, r.daysAgo19, r.daysAgo18, r.daysAgo17,
   r.daysAgo16, r.daysAgo15, r.daysAgo14, r.daysAgo13, r.daysAgo12,
   r.daysAgo11, r.daysAgo10, r.daysAgo9, r.daysAgo8, r.daysAgo7,
   r.daysAgo6, r.daysAgo5, r.daysAgo4, r.daysAgo3, r.daysAgo2, r.daysAgo1]

/-- `dailyPrices.py` lines 156-169 (same in `recentIPOTickersAndPrices.py`
lines 182-195): a move is `current - baseline` when the baseline cell is
non-NaN (`pd.notna`) and non-zero, and `0.0` otherwise. -/
def moveFrom (current : ℚ) (baseline : Option ℚ) : ℚ :=
  match baseline with
  | some b => if b ≠ 0 then current - b else 0
  | none => 0

/-- Body of the per-row branch of
`DailyPriceUpdater.roll_prices_for_existing_tickers`
(`dailyPrices.py` lines 151-176; identical code in
`RecentIPOPriceUpdater.roll_prices_for_existing_tickers`,
`recentIPOTickersAndPrices.py` lines 177-202).  When the ticker has a
freshly fetched price the slots shift left by one
(`df.at[index, f'{i}DaysAgo_price'] = row[f'{i-1}DaysAgo_price']` for
`i = 31 … 2`, then `1DaysAgo_price` absorbs the outgoing `Today_price`,
`Today_price` absorbs the fetched price) and the three moves are
recomputed from the *pre-shift* `row` values; when the ticker is not in
the `ticker_prices` dict the row is untouched. -/
def rollStep (prices : String → Option ℚ) (row : Row) : Row :=
  match prices row.ticker with
  | none => row
  | some current =>
    { ticker := row.ticker
      daysAgo31 := row.daysAgo30
      daysAgo30 := row.daysAgo29
      daysAgo29 := row.daysAgo28
      daysAgo28 := row.daysAgo27
      daysAgo27 := row.daysAgo26
      daysAgo26 := row.daysAgo25
      daysAgo25 := row.daysAgo24
      daysAgo24 := row.daysAgo23
      daysAgo23 := row.daysAgo22
      daysAgo22 := row.daysAgo21
      daysAgo21 := row.daysAgo20
      daysAgo20 := row.daysAgo19
      daysAgo19 := row.daysAgo18
      daysAgo18 := row.daysAgo17
      daysAgo17 := row.daysAgo16
      daysAgo16 := row.daysAgo15
      daysAgo15 := row.daysAgo14
      daysAgo14 := row.daysAgo13
      daysAgo13 := row.daysAgo12
      daysAgo12 := row.daysAgo11
      daysAgo11 := row.daysAgo10
      daysAgo10 := row.daysAgo9
      daysAgo9 := row.daysAgo8
      daysAgo8 := row.daysAgo7
      daysAgo7 := row.daysAgo6
      daysAgo6 := row.daysAgo5
      daysAgo5 := row.daysAgo4
      daysAgo4 := row.daysAgo3
      daysAgo3 := row.daysAgo2
      daysAgo2 := row.daysAgo1
      daysAgo1 := row.today_price
      today_price := some current
      day_move := moveFrom current row.today_price
      week_move := moveFrom current row.daysAgo7
      month_move := moveFrom current row.daysAgo30 }

/-- `roll_prices_for_existing_tickers`: the `for index, row in
df.iterrows()` loop updates each row in place, so the whole roll is a
map of `rollStep` over the table.  `prices` is the `ticker_prices` dict
built by `fetch_prices_for_tickers` over the store's own ticker column. -/
def roll_prices_for_existing_tickers (prices : String → Option ℚ)
    (store : List Row) : List Row :=
  store.map (rollStep prices)

/-- The `seen = set(); for ticker in new_tickers: …` loop of
`get_new_tickers_from_working_rolling`: keep the first occurrence of
each ticker, in input order. -/
def dedupeKeepFirst (seen : List String) : List String → List String
  | [] => []
  | t :: ts =>
    if t ∈ seen then dedupeKeepFirst seen ts
    else t :: dedupeKeepFirst (t :: seen) ts

/-- `DailyPriceUpdater.get_new_tickers_from_working_rolling` (lines
63-79; `limit=None` path): keep the working-file tickers not already in
the store, first occurrence only, in input order. -/
def get_new_tickers (working existing : List String) : List String :=
  dedupeKeepFirst [] (working.filter (fun t => ¬ t ∈ existing))

/-- `fetch_prices_for_tickers` (lines 80-90): fetch each ticker in order;
successful fetches enter the `prices` dict (modelled as an ordered
association list, matching Python dict insertion order), failures are
skipped. -/
def fetch_prices_for_tickers (fetch : String → Option ℚ)
    (tickers : List String) : List (String × ℚ) :=
  tickers.filterMap (fun t => (fetch t).map (fun p => (t, p)))

/-- The fresh row built for a new ticker by
`update_csv_with_new_tickers` (lines 95-132): all 31 lagged cells empty,
`Today_price` the fetched price, all moves `0.0`. -/
def mkNewRow (t : String) (p : ℚ) : Row :=
  { ticker := t
    daysAgo31 := none, daysAgo30 := none, daysAgo29 := none
    daysAgo28 := none, daysAgo27 := none, daysAgo26 := none
    daysAgo25 := none, daysAgo24 := none, daysAgo23 := none
    daysAgo22 := none, daysAgo21 := none, daysAgo20 := none
    daysAgo19 := none, daysAgo18 := none, daysAgo17 := none
    daysAgo16 := none, daysAgo15 := none, daysAgo14 := none
    daysAgo13 := none, daysAgo12 := none, daysAgo11 := none
    daysAgo10 := none, daysAgo9 := none, daysAgo8 := none
    daysAgo7 := none, daysAgo6 := none, daysAgo5 := none
    daysAgo4 := none, daysAgo3 := none, daysAgo2 := none
    daysAgo1 := none
    today_price := some p
    day_move := 0
    week_move := 0
    month_move := 0 }

/-- `update_csv_with_new_tickers` (lines 91-141): build one `row_data`
per `(ticker, price)` dict item and `pd.concat` them after the existing
table. -/
def update_csv_with_new_tickers (tickerPrices : List (String × ℚ))
    (store : List Row) : List Row :=
  store ++ tickerPrices.map (fun tp => mkNewRow tp.1 tp.2)

/-- The new-ticker phase of `run_daily_update` (lines 186-190): compute
genuinely new tickers from the working list, fetch their prices, and
append rows only when both lists are non-empty.  This composition is the
spec's `appendNewTicker`. -/
def runNewTickerStage (fetch : String → Option ℚ) (working : List String)
    (store : List Row) : List Row :=
  let newTickers := get_new_tickers working (store.map Row.ticker)
  if newTickers.isEmpty then store
  else
    let prices := fetch_prices_for_tickers fetch newTickers
    if prices.isEmpty then store
    else update_csv_with_new_tickers prices store

/-! ### PolygonPriceFetcher (`dailyPrices.py` lines 11-40, identical in
`recentIPOTickersAndPrices.py`)

The upstream is modelled as a stream of per-attempt outcomes: what the
`attempt`-th `session.get` / `response.json()` round would produce. -/

/-- What `data['ticker']` would offer: `minC` is `ticker_data['min']['c']`
when both the `'min'` key and its `'c'` key are present, `dayC` likewise
for `'day'`. -/
structure SnapResponse where
  status : Nat
  okStatus : Bool
  hasTick : Bool
  minC : Option ℚ
  dayC : Option ℚ
deriving DecidableEq

/-- Outcome of one attempt of `get_ticker_price`:
`exn` — `session.get` raised a `requests.exceptions.RequestException`;
`badJson` — `response.json()` or `float(...)` raised
`ValueError`/`KeyError`; `resp` — a response was decoded. -/
inductive Attempt
  | exn
  | badJson
  | resp (r : SnapResponse)
deriving DecidableEq

/-- The value returned by one iteration of the `for attempt in
range(max_retries)` loop body of `PolygonPriceFetcher.get_ticker_price`
(lines 20-39).  Every control path of the body executes a `return`:
404 → `None`; `raise_for_status` on a 4xx/5xx raises an `HTTPError`
(a `RequestException`) caught by the first `except`, → `None`; an OK
status with a ticker object returns `min.c`, else `day.c`, else `None`;
a non-OK shape returns `None`; both `except` arms return `None`. -/
def processAttempt : Attempt → Option ℚ
  | .exn => none
  | .badJson => none
  | .resp r =>
    if r.status = 404 then none
    else if 400 ≤ r.status then none
    else if r.okStatus ∧ r.hasTick then
      match r.minC with
      | some c => some c
      | none =>
        match r.dayC with
        | some c => some c
        | none => none
    else none

/-- `PolygonPriceFetcher.get_ticker_price` (lines 16-40).  Because every
path of the loop body returns, only `attempts 0` is ever consulted; the
trailing `return None` (line 40) is reached only when `max_retries = 0`
makes the loop body run zero times. -/
def get_ticker_price (attempts : ℕ → Attempt) (max_retries : ℕ := 2) :
    Option ℚ :=
  if max_retries = 0 then none else processAttempt (attempts 0)

/-! ### DailyScriptPuller: deduplication (`DailyScriptPuller.py` lines
326-336) -/

/-- A row of the combined filings table as far as the dedup block reads
it: the `ticker` key column, the `filedAt` column after
`pd.to_datetime(..., errors='coerce')` (`none` models `NaT`: parse
failure or missing), and the remaining columns opaquely. -/
structure CRow where
  ticker : String
  filedAt : Option Int
  rest : String
deriving DecidableEq

/-- Sort position of `filedAt` values under
`sort_values(..., ascending=[True, False])`: later timestamps first,
`NaT` last (pandas `na_position='last'`). `filedDesc x y` says `x` may
come at-or-before `y`. -/
def filedDesc : Option Int → Option Int → Prop
  | some a, some b => b ≤ a
  | some _, none => True
  | none, some _ => False
  | none, none => True

instance : DecidableRel filedDesc := fun x y =>
  match x, y with
  | some a, some b => (inferInstance : Decidable (b ≤ a))
  | some _, none => .isTrue trivial
  | none, some _ => .isFalse (fun h => h)
  | none, none => .isTrue trivial

/-- Row order of `combined_df.sort_values(['ticker', 'filedAt'],
ascending=[True, False])`: ticker ascending, then filing timestamp
descending with `NaT` last. -/
def rowLe (r s : CRow) : Prop :=
  r.ticker < s.ticker ∨ (r.ticker = s.ticker ∧ filedDesc r.filedAt s.filedAt)

instance : DecidableRel rowLe := fun r s => by
  unfold rowLe; infer_instance

/-- `drop_duplicates(subset=['ticker'], keep='first')`: keep each row
whose ticker has not been seen earlier in the list. -/
def dropDupFirst (seen : List String) : List CRow → List CRow
  | [] => []
  | r :: rs =>
    if r.ticker ∈ seen then dropDupFirst seen rs
    else r :: dropDupFirst (r.ticker :: seen) rs

/-- The dedup block when the `filedAt` column is present
(`DailyScriptPuller.update_rolling_data` lines 327-332): sort by
`(ticker ascending, filedAt descending, NaT last)` then keep the first
row per ticker.  (The `duplicate_count > 0` guard before
`drop_duplicates` does not change the result.)  pandas' default
unstable quicksort is modelled by the stable `insertionSort`; the two
agree whenever the sort keys `(ticker, filedAt)` are pairwise distinct,
and all properties proved below are independent of tie order. -/
def dedupWithFiledAt (rows : List CRow) : List CRow :=
  dropDupFirst [] (List.insertionSort rowLe rows)

/-- The dedup block when the `filedAt` column is absent (lines 333-336):
keep the first row per ticker in input order. -/
def dedupNoFiledAt (rows : List CRow) : List CRow :=
  dropDupFirst [] rows

/-- The whole dedup step of `update_rolling_data` (lines 326-336),
branching on presence of the `filedAt` column. -/
def update_rolling_dedup (hasFiledAt : Bool) (rows : List CRow) :
    List CRow :=
  if hasFiledAt then dedupWithFiledAt rows else dedupNoFiledAt rows

/-! ### DailyScriptPuller: filing-ticker extraction
(`combine_sec_and_yahoo_data`, lines 232-273)

`json.loads` and `ast.literal_eval` are external libraries; they are
passed in as oracle functions `jd`/`ld : String → Option (List TElem)`
(`none` models the decode raising, `some l` models decoding to the
list-like value `l` — the upstream `tickers` encodings are list-like). -/

/-- An element of a decoded `tickers` list: a dict (with the value of
its `'ticker'` key, if that key is present), a plain string, or some
other value. -/
inductive TElem
  | tdict (tick : Option String)
  | tstr (s : String)
  | tother
deriving DecidableEq

/-- The raw `row['tickers']` cell: missing (`None`/`NaN`), an encoded
string, an actual Python list, or some other object. -/
inductive TickersValue
  | missing
  | vstr (raw : String)
  | vlist (l : List TElem)
  | vother
deriving DecidableEq

/-- Lines 258-263: `ticker_list[0]['ticker']` when the first element is
a dict holding a `'ticker'` key, `ticker_list[0]` when it is a string,
`''` otherwise (empty list, dict without the key, or other type). -/
def firstTicker : List TElem → String
  | .tdict (some t) :: _ => t
  | .tdict none :: _ => ""
  | .tstr s :: _ => s
  | .tother :: _ => ""
  | [] => ""

/-- Python's `str.strip()`: drop leading and trailing whitespace. -/
def pyStrip (s : String) : String :=
  String.mk
    (((s.data.dropWhile Char.isWhitespace).reverse.dropWhile
        Char.isWhitespace).reverse)

/-- The strings for which the `is_valid` pre-check (lines 236-238)
rejects an encoded `tickers` string outright. -/
def invalidStrs : List String := ["[]", "nan", "None", ""]

/-- The per-row ticker extraction of `combine_sec_and_yahoo_data`
(lines 234-269): validity pre-check, then `json.loads`, then
`ast.literal_eval`, then give up with `''`; on success take the first
element of the decoded list. -/
def extractSecTicker (jd ld : String → Option (List TElem)) :
    TickersValue → String
  | .missing => ""
  | .vother => ""
  | .vlist l => if l = [] then "" else firstTicker l
  | .vstr raw =>
    if pyStrip raw ∈ invalidStrs then ""
    else
      match jd raw with
      | some l => firstTicker l
      | none =>
        match ld raw with
        | some l => firstTicker l
        | none => ""

/-- The `sec_tickers` list: the loop appends exactly one extracted
ticker per row of `sec_df` (every control path ends in one `append`),
so no filing row is ever dropped before the outer join. -/
def assignSecTickers (jd ld : String → Option (List TElem))
    (vals : List TickersValue) : List String :=
  vals.map (extractSecTicker jd ld)

/-- The spec's first example input, `"[{\"ticker\": \"ABC\"}]"`. -/
def exJsonInput : String := "[\x7b\"ticker\": \"ABC\"\x7d]"

/-- Behaviour of `json.loads` on the two example inputs of the spec:
it decodes the JSON array `[{"ticker": "ABC"}]` to a one-element list
of dicts, and raises `JSONDecodeError` on `"not json or literal"`. -/
def jsonDecodeEx : String → Option (List TElem) := fun raw =>
  if raw = exJsonInput then some [.tdict (some "ABC")] else none

/-- Behaviour of `ast.literal_eval` on the example inputs: it raises on
both (`"not json or literal"` is not a Python literal, and the JSON
input is already handled by `json.loads`). -/
def litDecodeEx : String → Option (List TElem) := fun _ => none

/-! ## Helper lemmas for the rolling store -/

theorem rollStep_ticker (prices : String → Option ℚ) (r : Row) :
    (rollStep prices r).ticker = r.ticker := by
  unfold rollStep
  cases prices r.ticker <;> rfl

theorem roll_length (prices : String → Option ℚ) (store : List Row) :
    (roll_prices_for_existing_tickers prices store).length = store.length := by
  simp [roll_prices_for_existing_tickers]

theorem roll_get (prices : String → Option ℚ) (store : List Row) (i : ℕ)
    (h : i < store.length)
    (h' : i < (roll_prices_for_existing_tickers prices store).length) :
    (roll_prices_for_existing_tickers prices store).get ⟨i, h'⟩
      = rollStep prices (store.get ⟨i, h⟩) := by
  simp [roll_prices_for_existing_tickers, List.get_eq_getElem,
    List.getElem_map]

/-- Unfolding of `rollStep` when the ticker's price was fetched. -/
theorem rollStep_some (prices : String → Option ℚ) (r : Row) (current : ℚ)
    (hc : prices r.ticker = some current) :
    rollStep prices r =
      { ticker := r.ticker
        daysAgo31 := r.daysAgo30
        daysAgo30 := r.daysAgo29
        daysAgo29 := r.daysAgo28
        daysAgo28 := r.daysAgo27
        daysAgo27 := r.daysAgo26
        daysAgo26 := r.daysAgo25
        daysAgo25 := r.daysAgo24
        daysAgo24 := r.daysAgo23
        daysAgo23 := r.daysAgo22
        daysAgo22 := r.daysAgo21
        daysAgo21 := r.daysAgo20
        daysAgo20 := r.daysAgo19
        daysAgo19 := r.daysAgo18
        daysAgo18 := r.daysAgo17
        daysAgo17 := r.daysAgo16
        daysAgo16 := r.daysAgo15
        daysAgo15 := r.daysAgo14
        daysAgo14 := r.daysAgo13
        daysAgo13 := r.daysAgo12
        daysAgo12 := r.daysAgo11
        daysAgo11 := r.daysAgo10
        daysAgo10 := r.daysAgo9
        daysAgo9 := r.daysAgo8
        daysAgo8 := r.daysAgo7
        daysAgo7 := r.daysAgo6
        daysAgo6 := r.daysAgo5
        daysAgo5 := r.daysAgo4
        daysAgo4 := r.daysAgo3
        daysAgo3 := r.daysAgo2
        daysAgo2 := r.daysAgo1
        daysAgo1 := r.today_price
        today_price := some current
        day_move := moveFrom current r.today_price
        week_move := moveFrom current r.daysAgo7
        month_move := moveFrom current r.daysAgo30 } := by
  unfold rollStep
  rw [hc]

/-! ## C1: rolling twice shifts prices back two slots -/

/-- C1: for every store row and prices `p1`, `p2`, rolling the store
twice in sequence — fetching `p1` for that row's ticker the first day
and `p2` the second — leaves the row with `2DaysAgo_price` equal to the
initial `Today_price`, `1DaysAgo_price = p1`, and `Today_price = p2`. -/
theorem roll_twice_shifts (store : List Row) (f1 f2 : String → Option ℚ)
    (p1 p2 : ℚ) (i : ℕ) (h : i < store.length)
    (h' : i < (roll_prices_for_existing_tickers f2
        (roll_prices_for_existing_tickers f1 store)).length)
    (h1 : f1 ((store.get ⟨i, h⟩).ticker) = some p1)
    (h2 : f2 ((store.get ⟨i, h⟩).ticker) = some p2) :
    ((roll_prices_for_existing_tickers f2
        (roll_prices_for_existing_tickers f1 store)).get ⟨i, h'⟩).daysAgo2
        = (store.get ⟨i, h⟩).today_price ∧
    ((roll_prices_for_existing_tickers f2
        (roll_prices_for_existing_tickers f1 store)).get ⟨i, h'⟩).daysAgo1
        = some p1 ∧
    ((roll_prices_for_existing_tickers f2
        (roll_prices_for_existing_tickers f1 store)).get ⟨i, h'⟩).today_price
        = some p2 := by
  have hm : i < (roll_prices_for_existing_tickers f1 store).length := by
    rw [roll_length]; exact h
  rw [roll_get f2 _ i hm h', roll_get f1 store i h hm,
    rollStep_some f1 _ p1 h1]
  rw [rollStep_some f2 _ p2]
  · exact ⟨rfl, rfl, rfl⟩
  · exact h2

/-- Concrete store used by several witnesses: one row for ticker `AAA`
freshly appended at price 10. -/
def wRow : Row := mkNewRow "AAA" 10

def wStore : List Row := [wRow]

def wF1 : String → Option ℚ := fun _ => some 5

def wF2 : String → Option ℚ := fun _ => some 7

theorem roll_twice_shifts_witness :
    ((roll_prices_for_existing_tickers wF2
        (roll_prices_for_existing_tickers wF1 wStore)).get
          ⟨0, by decide⟩).daysAgo2
        = (wStore.get ⟨0, by decide⟩).today_price ∧
    ((roll_prices_for_existing_tickers wF2
        (roll_prices_for_existing_tickers wF1 wStore)).get
          ⟨0, by decide⟩).daysAgo1 = some 5 ∧
    ((roll_prices_for_existing_tickers wF2
        (roll_prices_for_existing_tickers wF1 wStore)).get
          ⟨0, by decide⟩).today_price = some 7 :=
  roll_twice_shifts wStore wF1 wF2 5 7 0 (by decide) (by decide)
    (by decide) (by decide)

/-! ## C4: tickers without a fetched price are left unchanged -/

/-- C4: a store row whose ticker got no freshly fetched price in the
batch (fetch failed or omitted, i.e. absent from the `ticker_prices`
dict) is byte-for-byte unchanged by the roll: the whole row — all 32
price slots and the three move columns — keeps its prior value. -/
theorem roll_frame (store : List Row) (f : String → Option ℚ) (i : ℕ)
    (h : i < store.length)
    (h' : i < (roll_prices_for_existing_tickers f store).length)
    (hf : f ((store.get ⟨i, h⟩).ticker) = none) :
    (roll_prices_for_existing_tickers f store).get ⟨i, h'⟩
      = store.get ⟨i, h⟩ := by
  rw [roll_get f store i h h']
  unfold rollStep
  rw [hf]

def wFnone : String → Option ℚ := fun _ => none

theorem roll_frame_witness :
    (roll_prices_for_existing_tickers wFnone wStore).get ⟨0, by decide⟩
      = wStore.get ⟨0, by decide⟩ :=
  roll_frame wStore wFnone 0 (by decide) (by decide) (by decide)

/-! ## C10: the roll preserves the row set -/

/-- C10: rolling never inserts, deletes, or reorders rows — whatever
fetches succeed, the rolled table has the same length and the same
ticker column, in the same order, as before. -/
theorem roll_preserves_rows (f : String → Option ℚ) (store : List Row) :
    (roll_prices_for_existing_tickers f store).length = store.length ∧
    (roll_prices_for_existing_tickers f store).map Row.ticker
      = store.map Row.ticker := by
  constructor
  · exact roll_length f store
  · unfold roll_prices_for_existing_tickers
    rw [List.map_map]
    exact List.map_congr_left (fun r _ => rollStep_ticker f r)

/-! ## C2: which slot each move is computed against -/

/-- The spec's description of a derived move against a baseline slot:
`move = current − baseline` when the baseline is present and non-zero,
`0.0` otherwise. -/
def MoveSpec (move current : ℚ) (baseline : Option ℚ) : Prop :=
  (∀ b, baseline = some b → b ≠ 0 → move = current - b) ∧
  (baseline = none → move = 0) ∧
  (baseline = some 0 → move = 0)

theorem moveFrom_spec (c : ℚ) (b : Option ℚ) : MoveSpec (moveFrom c b) c b := by
  refine ⟨?_, ?_, ?_⟩
  · intro v hv hne
    subst hv
    simp [moveFrom, hne]
  · intro hv
    subst hv
    simp [moveFrom]
  · intro hv
    subst hv
    simp [moveFrom]

/-- Store with one row whose pre-roll slots are
`7DaysAgo = 5`, `6DaysAgo = 3`, `Today = 10` (ticker `AAA`). -/
def c2Row : Row :=
  { wRow with daysAgo7 := some 5, daysAgo6 := some 3 }

def c2F : String → Option ℚ := fun _ => some 20

def c2Out : List Row := roll_prices_for_existing_tickers c2F [c2Row]

/-- C2 refutation: rolling the concrete store `[c2Row]` with fetched
price 20 yields a row whose `7DaysAgo_price` is present (`3`) and
non-zero and whose `Today_price` is `20`, yet whose `Week_move` is `15`
(computed against the pre-roll `7DaysAgo` slot, i.e. the post-roll
`8DaysAgo` slot) and not `20 − 3 = 17` — so the resulting row does not
satisfy `Week_move = Today_price − 7DaysAgo_price` with both operands
read from the resulting row. -/
theorem roll_moves_claim_cex :
    c2Out.head?.map Row.daysAgo7 = some (some 3) ∧
    c2Out.head?.map Row.today_price = some (some 20) ∧
    c2Out.head?.map Row.week_move = some 15 ∧
    (20 : ℚ) - 3 ≠ 15 := by
  refine ⟨?_, ?_, ?_, by norm_num⟩
  · simp [c2Out, roll_prices_for_existing_tickers, rollStep, c2F, c2Row,
      wRow, mkNewRow, moveFrom]
  · simp [c2Out, roll_prices_for_existing_tickers, rollStep, c2F, c2Row,
      wRow, mkNewRow, moveFrom]
  · simp [c2Out, roll_prices_for_existing_tickers, rollStep, c2F, c2Row,
      wRow, mkNewRow, moveFrom]
    norm_num

/-- C2 amended: for every ticker updated by the roll, the resulting row
satisfies `Day_move = Today_price − 1DaysAgo_price` gated on the
resulting `1DaysAgo` slot (present and non-zero, else `0.0`), while
`Week_move` is computed against the resulting `8DaysAgo_price` slot
(the pre-roll `7DaysAgo` value) and `Month_move` against the resulting
`31DaysAgo_price` slot (the pre-roll `30DaysAgo` value), each gated the
same way. -/
theorem roll_moves_amended (store : List Row) (f : String → Option ℚ)
    (p : ℚ) (i : ℕ) (h : i < store.length)
    (h' : i < (roll_prices_for_existing_tickers f store).length)
    (hf : f ((store.get ⟨i, h⟩).ticker) = some p) :
    ((roll_prices_for_existing_tickers f store).get ⟨i, h'⟩).today_price
        = some p ∧
    MoveSpec ((roll_prices_for_existing_tickers f store).get ⟨i, h'⟩).day_move
      p ((roll_prices_for_existing_tickers f store).get ⟨i, h'⟩).daysAgo1 ∧
    MoveSpec ((roll_prices_for_existing_tickers f store).get ⟨i, h'⟩).week_move
      p ((roll_prices_for_existing_tickers f store).get ⟨i, h'⟩).daysAgo8 ∧
    MoveSpec ((roll_prices_for_existing_tickers f store).get ⟨i, h'⟩).month_move
      p ((roll_prices_for_existing_tickers f store).get ⟨i, h'⟩).daysAgo31 := by
  rw [roll_get f store i h h', rollStep_some f _ p hf]
  exact ⟨rfl, moveFrom_spec _ _, moveFrom_spec _ _, moveFrom_spec _ _⟩

theorem roll_moves_amended_witness :
    ((roll_prices_for_existing_tickers c2F [c2Row]).get
        ⟨0, by decide⟩).today_price = some 20 ∧
    MoveSpec ((roll_prices_for_existing_tickers c2F [c2Row]).get
        ⟨0, by decide⟩).day_move 20
      ((roll_prices_for_existing_tickers c2F [c2Row]).get
        ⟨0, by decide⟩).daysAgo1 ∧
    MoveSpec ((roll_prices_for_existing_tickers c2F [c2Row]).get
        ⟨0, by decide⟩).week_move 20
      ((roll_prices_for_existing_tickers c2F [c2Row]).get
        ⟨0, by decide⟩).daysAgo8 ∧
    MoveSpec ((roll_prices_for_existing_tickers c2F [c2Row]).get
        ⟨0, by decide⟩).month_move 20
      ((roll_prices_for_existing_tickers c2F [c2Row]).get
        ⟨0, by decide⟩).daysAgo31 :=
  roll_moves_amended [c2Row] c2F 20 0 (by decide) (by decide) (by decide)

/-! ## C3: appending an existing ticker is a no-op -/

/-- C3: for every store containing ticker `t` and every fetched price,
running the new-ticker append stage with `t` as the candidate leaves
the store exactly as it was (the existing row for `t` is untouched):
`get_new_tickers_from_working_rolling` filters out tickers already on
file before `update_csv_with_new_tickers` ever runs. -/
theorem append_existing_noop (store : List Row)
    (fetch : String → Option ℚ) (t : String)
    (ht : t ∈ store.map Row.ticker) :
    runNewTickerStage fetch [t] store = store := by
  unfold runNewTickerStage get_new_tickers
  simp [List.filter, ht, dedupeKeepFirst]

theorem append_existing_noop_witness :
    runNewTickerStage wF1 ["AAA"] wStore = wStore :=
  append_existing_noop wStore wF1 "AAA" (by decide)

/-! ## C5: appending a genuinely new ticker -/

/-- C5: for every ticker `t` not in the store and fetched price `p`,
the append stage adds exactly one new row at the end of the table; that
row carries ticker `t`, all 31 lagged slots empty, `Today_price = p`,
and all three moves `0.0`. -/
theorem append_new_ticker (store : List Row) (fetch : String → Option ℚ)
    (t : String) (p : ℚ) (ht : ¬ t ∈ store.map Row.ticker)
    (hf : fetch t = some p) :
    runNewTickerStage fetch [t] store = store ++ [mkNewRow t p] ∧
    (mkNewRow t p).ticker = t ∧
    lagSlots (mkNewRow t p) = List.replicate 31 none ∧
    (mkNewRow t p).today_price = some p ∧
    (mkNewRow t p).day_move = 0 ∧
    (mkNewRow t p).week_move = 0 ∧
    (mkNewRow t p).month_move = 0 := by
  refine ⟨?_, rfl, rfl, rfl, rfl, rfl, rfl⟩
  unfold runNewTickerStage get_new_tickers
  simp [List.filter, ht, dedupeKeepFirst, fetch_prices_for_tickers, hf,
    update_csv_with_new_tickers]

theorem append_new_ticker_witness :
    runNewTickerStage wF1 ["BBB"] wStore = wStore ++ [mkNewRow "BBB" 5] ∧
    (mkNewRow "BBB" 5).ticker = "BBB" ∧
    lagSlots (mkNewRow "BBB" 5) = List.replicate 31 none ∧
    (mkNewRow "BBB" 5).today_price = some 5 ∧
    (mkNewRow "BBB" 5).day_move = 0 ∧
    (mkNewRow "BBB" 5).week_move = 0 ∧
    (mkNewRow "BBB" 5).month_move = 0 :=
  append_new_ticker wStore wF1 "BBB" 5 (by decide) (by decide)

/-! ## C9: the price fetch retry loop -/

/-- Attempt stream on which the claimed retry behaviour and the code
diverge: the first `session.get` raises a transient network exception,
while a second attempt would receive HTTP 200, status `OK`, and a
minute bar closing price of 42. -/
def c9Attempts : ℕ → Attempt := fun n =>
  if n = 0 then Attempt.exn
  else Attempt.resp
    { status := 200, okStatus := true, hasTick := true
      minC := some 42, dayC := none }

/-- C9: with `max_retries = 2`, `get_ticker_price` returns `None`
immediately after the first attempt's network exception even though the
second attempt would have produced the price 42 — the `except` arms
`return None` instead of continuing the loop, so no retry ever occurs. -/
theorem get_ticker_price_no_retry :
    get_ticker_price c9Attempts 2 = none ∧
    processAttempt (c9Attempts 1) = some 42 := by
  constructor
  · rfl
  · rfl

/-! ## C8: filing-ticker extraction -/

/-- C8: for every filing row, ticker extraction (i) keeps exactly one
output entry per input row — no row is ever dropped; for every encoded
`tickers` string passing the validity pre-check, (ii) a successful JSON
decode wins and the canonical ticker is the first element of the decoded
list, (iii) on JSON failure the Python-literal decode is tried and its
first element taken, (iv) when both decodes fail the row gets the
empty-string ticker, and (v) a decode to the empty list also yields the
empty-string ticker; concretely (vi) input `"[{\"ticker\": \"ABC\"}]"`
extracts `"ABC"` and (vii) input `"not json or literal"` extracts `""`. -/
theorem extract_sec_tickers_spec :
    (∀ (jd ld : String → Option (List TElem)) (vals : List TickersValue),
      (assignSecTickers jd ld vals).length = vals.length) ∧
    (∀ (jd ld : String → Option (List TElem)) (raw : String)
        (l : List TElem), ¬ pyStrip raw ∈ invalidStrs → jd raw = some l →
      extractSecTicker jd ld (TickersValue.vstr raw) = firstTicker l) ∧
    (∀ (jd ld : String → Option (List TElem)) (raw : String)
        (l : List TElem), ¬ pyStrip raw ∈ invalidStrs → jd raw = none →
        ld raw = some l →
      extractSecTicker jd ld (TickersValue.vstr raw) = firstTicker l) ∧
    (∀ (jd ld : String → Option (List TElem)) (raw : String),
        jd raw = none → ld raw = none →
      extractSecTicker jd ld (TickersValue.vstr raw) = "") ∧
    (∀ (jd ld : String → Option (List TElem)) (raw : String),
        jd raw = some [] →
      extractSecTicker jd ld (TickersValue.vstr raw) = "") ∧
    extractSecTicker jsonDecodeEx litDecodeEx
      (TickersValue.vstr exJsonInput) = "ABC" ∧
    extractSecTicker jsonDecodeEx litDecodeEx
      (TickersValue.vstr "not json or literal") = "" := by
  refine ⟨?_, ?_, ?_, ?_, ?_, ?_, ?_⟩
  · intro jd ld vals
    simp [assignSecTickers]
  · intro jd ld raw l hval hjd
    simp [extractSecTicker, hval, hjd]
  · intro jd ld raw l hval hjd hld
    simp [extractSecTicker, hval, hjd, hld]
  · intro jd ld raw hjd hld
    by_cases hval : pyStrip raw ∈ invalidStrs <;>
      simp [extractSecTicker, hval, hjd, hld]
  · intro jd ld raw hjd
    by_cases hval : pyStrip raw ∈ invalidStrs <;>
      simp [extractSecTicker, hval, hjd, firstTicker]
  · decide
  · decide

theorem extract_sec_tickers_witness :
    extractSecTicker jsonDecodeEx litDecodeEx
        (TickersValue.vstr exJsonInput)
      = firstTicker [TElem.tdict (some "ABC")] ∧
    (assignSecTickers jsonDecodeEx litDecodeEx
        [TickersValue.vstr exJsonInput,
         TickersValue.vstr "not json or literal"]).length = 2 :=
  ⟨extract_sec_tickers_spec.2.1 jsonDecodeEx litDecodeEx exJsonInput
      [TElem.tdict (some "ABC")] (by decide) (by decide),
   extract_sec_tickers_spec.1 jsonDecodeEx litDecodeEx
      [TickersValue.vstr exJsonInput,
       TickersValue.vstr "not json or literal"]⟩

/-! ## Order facts for the dedup sort -/

theorem filedDesc_refl (x : Option Int) : filedDesc x x := by
  cases x <;> simp [filedDesc]

theorem filedDesc_total (x y : Option Int) :
    filedDesc x y ∨ filedDesc y x := by
  cases x with
  | none => cases y <;> simp [filedDesc]
  | some a =>
    cases y with
    | none => simp [filedDesc]
    | some b => simpa [filedDesc] using le_total b a

theorem filedDesc_trans {x y z : Option Int} :
    filedDesc x y → filedDesc y z → filedDesc x z := by
  cases x <;> cases y <;> cases z <;> simp [filedDesc]
  omega

instance : IsTotal CRow rowLe :=
  ⟨fun r s => by
    rcases lt_trichotomy r.ticker s.ticker with h | h | h
    · exact Or.inl (Or.inl h)
    · rcases filedDesc_total r.filedAt s.filedAt with hf | hf
      · exact Or.inl (Or.inr ⟨h, hf⟩)
      · exact Or.inr (Or.inr ⟨h.symm, hf⟩)
    · exact Or.inr (Or.inl h)⟩

instance : IsTrans CRow rowLe :=
  ⟨fun a b c hab hbc => by
    rcases hab with h1 | ⟨e1, f1⟩
    · rcases hbc with h2 | ⟨e2, f2⟩
      · exact Or.inl (lt_trans h1 h2)
      · exact Or.inl (lt_of_lt_of_eq h1 e2)
    · rcases hbc with h2 | ⟨e2, f2⟩
      · exact Or.inl (lt_of_eq_of_lt e1 h2)
      · exact Or.inr ⟨e1.trans e2, filedDesc_trans f1 f2⟩⟩

/-! ## Facts about `dropDupFirst` -/

theorem dropDupFirst_sublist :
    ∀ (l : List CRow) (seen : List String),
      List.Sublist (dropDupFirst seen l) l
  | [], _ => List.Sublist.refl _
  | a :: rs, seen => by
    unfold dropDupFirst
    by_cases h : a.ticker ∈ seen
    · rw [if_pos h]
      exact (dropDupFirst_sublist rs seen).cons a
    · rw [if_neg h]
      exact (dropDupFirst_sublist rs (a.ticker :: seen)).cons₂ a

theorem mem_dropDupFirst_not_seen :
    ∀ (l : List CRow) (seen : List String) (r : CRow),
      r ∈ dropDupFirst seen l → r.ticker ∉ seen
  | [], _, r => by simp [dropDupFirst]
  | a :: rs, seen, r => by
    unfold dropDupFirst
    by_cases h : a.ticker ∈ seen
    · rw [if_pos h]
      exact mem_dropDupFirst_not_seen rs seen r
    · rw [if_neg h]
      intro hm
      rcases List.mem_cons.mp hm with rfl | hm'
      · exact h
      · have hns := mem_dropDupFirst_not_seen rs (a.ticker :: seen) r hm'
        exact fun hs => hns (List.mem_cons_of_mem _ hs)

theorem dropDupFirst_tickers_nodup :
    ∀ (l : List CRow) (seen : List String),
      (dropDupFirst seen l).Pairwise (fun r s => r.ticker ≠ s.ticker)
  | [], _ => by simp [dropDupFirst]
  | a :: rs, seen => by
    unfold dropDupFirst
    by_cases h : a.ticker ∈ seen
    · rw [if_pos h]
      exact dropDupFirst_tickers_nodup rs seen
    · rw [if_neg h]
      refine List.Pairwise.cons ?_ (dropDupFirst_tickers_nodup rs _)
      intro s hs he
      have hns := mem_dropDupFirst_not_seen rs (a.ticker :: seen) s hs
      apply hns
      rw [← he]
      exact List.mem_cons_self _ _

theorem dropDupFirst_eq_self :
    ∀ (l : List CRow) (seen : List String),
      (∀ r ∈ l, r.ticker ∉ seen) →
      l.Pairwise (fun r s => r.ticker ≠ s.ticker) →
      dropDupFirst seen l = l
  | [], _, _, _ => rfl
  | a :: rs, seen, hseen, hpw => by
    unfold dropDupFirst
    rw [if_neg (hseen a (List.mem_cons_self a rs))]
    congr 1
    refine dropDupFirst_eq_self rs (a.ticker :: seen) ?_
      (List.pairwise_cons.mp hpw).2
    intro r hr hmem
    rcases List.mem_cons.mp hmem with he | hseen'
    · exact (List.pairwise_cons.mp hpw).1 r hr he.symm
    · exact hseen r (List.mem_cons_of_mem a hr) hseen'

theorem find?_dropDupFirst :
    ∀ (l : List CRow) (seen : List String) (t : String), t ∉ seen →
      (dropDupFirst seen l).find? (fun r => r.ticker == t)
        = l.find? (fun r => r.ticker == t)
  | [], _, _, _ => rfl
  | a :: rs, seen, t, ht => by
    unfold dropDupFirst
    by_cases h : a.ticker ∈ seen
    · rw [if_pos h]
      have hne : (a.ticker == t) = false := by
        rw [beq_eq_false_iff_ne]
        intro hb
        exact ht (hb ▸ h)
      rw [find?_dropDupFirst rs seen t ht]
      simp only [List.find?_cons, hne, cond_false]
    · rw [if_neg h]
      by_cases hb : (a.ticker == t) = true
      · simp only [List.find?_cons, hb, cond_true]
      · have hne : (a.ticker == t) = false := by
          simpa using hb
        simp only [List.find?_cons, hne, cond_false]
        refine find?_dropDupFirst rs (a.ticker :: seen) t ?_
        intro hmem
        rcases List.mem_cons.mp hmem with he | hseen'
        · rw [beq_eq_false_iff_ne] at hne
          exact hne he.symm
        · exact ht hseen'

theorem countP_dropDupFirst_seen :
    ∀ (l : List CRow) (seen : List String) (t : String), t ∈ seen →
      (dropDupFirst seen l).countP (fun r => r.ticker == t) = 0
  | [], _, _, _ => rfl
  | a :: rs, seen, t, ht => by
    unfold dropDupFirst
    by_cases h : a.ticker ∈ seen
    · rw [if_pos h]
      exact countP_dropDupFirst_seen rs seen t ht
    · rw [if_neg h]
      have hne : ¬ ((a.ticker == t) = true) := by
        intro hb
        rw [beq_iff_eq] at hb
        exact h (hb ▸ ht)
      rw [List.countP_cons]
      rw [countP_dropDupFirst_seen rs (a.ticker :: seen) t
        (List.mem_cons_of_mem _ ht)]
      simp [hne]

theorem countP_dropDupFirst :
    ∀ (l : List CRow) (seen : List String) (t : String), t ∉ seen →
      (dropDupFirst seen l).countP (fun r => r.ticker == t)
        = if l.any (fun r => r.ticker == t) then 1 else 0
  | [], _, _, _ => rfl
  | a :: rs, seen, t, ht => by
    unfold dropDupFirst
    by_cases h : a.ticker ∈ seen
    · have hne : ¬ ((a.ticker == t) = true) := by
        intro hb
        rw [beq_iff_eq] at hb
        exact ht (hb ▸ h)
      rw [if_pos h, countP_dropDupFirst rs seen t ht, List.any_cons]
      simp [hne]
    · rw [if_neg h]
      by_cases hb : (a.ticker == t) = true
      · rw [List.countP_cons]
        have hmem : t ∈ a.ticker :: seen := by
          rw [beq_iff_eq] at hb
          rw [hb]
          exact List.mem_cons_self _ _
        rw [countP_dropDupFirst_seen rs (a.ticker :: seen) t hmem]
        simp [hb, List.any_cons]
      · rw [List.countP_cons]
        have ht' : t ∉ a.ticker :: seen := by
          intro hmem
          rcases List.mem_cons.mp hmem with he | hseen'
          · rw [beq_iff_eq] at hb
            exact hb he.symm
          · exact ht hseen'
        rw [countP_dropDupFirst rs (a.ticker :: seen) t ht', List.any_cons]
        simp [hb]

/-- In a list sorted by `(ticker ascending, filedAt descending)`, the
first row found for a ticker carries a maximal (most-recent, `NaT`
last) filing timestamp among all rows with that ticker. -/
theorem sorted_find?_max :
    ∀ (l : List CRow) (t : String) (k : CRow),
      l.Pairwise rowLe →
      l.find? (fun r => r.ticker == t) = some k →
      ∀ r ∈ l, r.ticker = t → filedDesc k.filedAt r.filedAt
  | [], _, _, _, hfind => by simp [List.find?] at hfind
  | a :: rs, t, k, hpw, hfind => by
    obtain ⟨hhead, htail⟩ := List.pairwise_cons.mp hpw
    by_cases hb : (a.ticker == t) = true
    · simp only [List.find?_cons, hb, cond_true] at hfind
      have hak : a = k := by injection hfind
      subst hak
      intro r hr hrt
      rcases List.mem_cons.mp hr with rfl | hr'
      · exact filedDesc_refl _
      · rcases hhead r hr' with hlt | ⟨_, hf⟩
        · rw [beq_iff_eq] at hb
          rw [hb, hrt] at hlt
          exact absurd hlt (lt_irrefl _)
        · exact hf
    · have hne : (a.ticker == t) = false := by simpa using hb
      simp only [List.find?_cons, hne, cond_false] at hfind
      intro r hr hrt
      rcases List.mem_cons.mp hr with rfl | hr'
      · rw [beq_iff_eq] at hb
        exact absurd hrt hb
      · exact sorted_find?_max rs t k htail hfind r hr' hrt

/-! ## C6: deduplication keeps the most recent filing -/

/-- C6: when the `filedAt` column is present, the dedup step keeps
exactly one row per ticker occurring in the table — the first row found
after sorting by (ticker ascending, timestamp descending), whose filing
timestamp is maximal (most recent, `NaT` last) among all rows of that
ticker; when the column is absent, it keeps the first row per ticker in
input order. -/
theorem dedup_most_recent :
    (∀ (rows : List CRow) (t : String) (r0 : CRow),
        r0 ∈ rows → r0.ticker = t →
      ∃ k, k ∈ rows ∧ k.ticker = t ∧
        (dedupWithFiledAt rows).find? (fun r => r.ticker == t) = some k ∧
        (dedupWithFiledAt rows).countP (fun r => r.ticker == t) = 1 ∧
        ∀ r ∈ rows, r.ticker = t → filedDesc k.filedAt r.filedAt) ∧
    (∀ (rows : List CRow) (t : String),
      (dedupNoFiledAt rows).find? (fun r => r.ticker == t)
        = rows.find? (fun r => r.ticker == t)) ∧
    (∀ (rows : List CRow) (t : String) (r0 : CRow),
        r0 ∈ rows → r0.ticker = t →
      (dedupNoFiledAt rows).countP (fun r => r.ticker == t) = 1) := by
  refine ⟨?_, ?_, ?_⟩
  · intro rows t r0 h0 h0t
    have hperm : (List.insertionSort rowLe rows).Perm rows :=
      List.perm_insertionSort rowLe rows
    have h0s : r0 ∈ List.insertionSort rowLe rows := hperm.mem_iff.mpr h0
    have hfindS :
        ((List.insertionSort rowLe rows).find?
          (fun r => r.ticker == t)).isSome := by
      rw [List.find?_isSome]
      exact ⟨r0, h0s, by simp [h0t]⟩
    obtain ⟨k, hk⟩ := Option.isSome_iff_exists.mp hfindS
    have hkmemS : k ∈ List.insertionSort rowLe rows :=
      List.mem_of_find?_eq_some hk
    have hkt : k.ticker = t := by
      have hp := List.find?_some hk
      rwa [beq_iff_eq] at hp
    have hsorted : (List.insertionSort rowLe rows).Pairwise rowLe :=
      List.sorted_insertionSort rowLe rows
    refine ⟨k, hperm.mem_iff.mp hkmemS, hkt, ?_, ?_, ?_⟩
    · show (dropDupFirst [] (List.insertionSort rowLe rows)).find?
        (fun r => r.ticker == t) = some k
      rw [find?_dropDupFirst _ [] t (List.not_mem_nil t)]
      exact hk
    · show (dropDupFirst [] (List.insertionSort rowLe rows)).countP
        (fun r => r.ticker == t) = 1
      rw [countP_dropDupFirst _ [] t (List.not_mem_nil t),
        if_pos (List.any_eq_true.mpr ⟨r0, h0s, by simp [h0t]⟩)]
    · intro r hr hrt
      exact sorted_find?_max _ t k hsorted hk r (hperm.mem_iff.mpr hr) hrt
  · intro rows t
    exact find?_dropDupFirst rows [] t (List.not_mem_nil t)
  · intro rows t r0 h0 h0t
    show (dropDupFirst [] rows).countP (fun r => r.ticker == t) = 1
    rw [countP_dropDupFirst rows [] t (List.not_mem_nil t),
      if_pos (List.any_eq_true.mpr ⟨r0, h0, by simp [h0t]⟩)]

def c6RowOld : CRow := { ticker := "AAA", filedAt := some 1, rest := "old" }

def c6RowNew : CRow := { ticker := "AAA", filedAt := some 5, rest := "new" }

def c6Rows : List CRow := [c6RowOld, c6RowNew]

theorem dedup_most_recent_witness :
    (dedupWithFiledAt c6Rows).countP (fun r => r.ticker == "AAA") = 1 ∧
    (dedupNoFiledAt c6Rows).find? (fun r => r.ticker == "AAA")
      = c6Rows.find? (fun r => r.ticker == "AAA") ∧
    (dedupNoFiledAt c6Rows).countP (fun r => r.ticker == "AAA") = 1 := by
  obtain ⟨k, _, _, _, hc, _⟩ :=
    dedup_most_recent.1 c6Rows "AAA" c6RowOld (by decide) (by decide)
  exact ⟨hc, dedup_most_recent.2.1 c6Rows "AAA",
    dedup_most_recent.2.2 c6Rows "AAA" c6RowOld (by decide) (by decide)⟩

/-! ## C7: deduplication is idempotent -/

/-- C7: the dedup step of `update_rolling_data` is idempotent — in both
branches (with and without the `filedAt` column), applying it to its own
output returns that output unchanged. -/
theorem dedup_idempotent (hasFiledAt : Bool) (rows : List CRow) :
    update_rolling_dedup hasFiledAt (update_rolling_dedup hasFiledAt rows)
      = update_rolling_dedup hasFiledAt rows := by
  cases hasFiledAt with
  | false =>
    show dedupNoFiledAt (dedupNoFiledAt rows) = dedupNoFiledAt rows
    exact dropDupFirst_eq_self _ [] (fun r _ => List.not_mem_nil _)
      (dropDupFirst_tickers_nodup rows [])
  | true =>
    have hsorted : (dedupWithFiledAt rows).Pairwise rowLe :=
      List.Pairwise.sublist (dropDupFirst_sublist _ [])
        (List.sorted_insertionSort rowLe rows)
    show dropDupFirst []
        (List.insertionSort rowLe (dedupWithFiledAt rows))
      = dedupWithFiledAt rows
    rw [List.Sorted.insertionSort_eq hsorted]
    exact dropDupFirst_eq_self _ [] (fun r _ => List.not_mem_nil _)
      (dropDupFirst_tickers_nodup _ [])

end Newsletter
